import Mathlib

/-!
# FitTrack Pro — verification of the aggregation / leaderboard / GPS core

Shallow embedding of the fitness tracker's aggregation logic:

* nutrition rollup (`mealTotals`, from the charts and dashboard routes),
* incremental meal-total counters (`addFoodTotals` / `deleteFoodTotals`,
  from the food-entry POST/DELETE handlers),
* day bucketing (`nutritionByDate`, the JS `Map` grouping of the charts route),
* the challenge leaderboard response (`leaderboard`, from the leaderboard GET),
* request validation (`challengeParse`, `foodEntryParse`, the zod schemas),
* the GPS recorder (`calculateDistance`, `recordDistance`, `avgPace`,
  `elevationGain`).

JavaScript `number` arithmetic is modelled exactly: by `ℚ` where the code
only adds, subtracts and multiplies, and by `ℝ` where trigonometry appears.
-/

namespace FitTrack

/-! ## Nutrition rollup -/

/-- A food entry row as stored per meal (`foodEntries` include). -/
structure FoodEntry where
  quantity : ℚ
  calories : ℚ
  protein  : ℚ
  carbs    : ℚ
  fats     : ℚ
deriving DecidableEq, Repr

/-- The four macro accumulators used throughout the nutrition code. -/
structure Totals where
  calories : ℚ
  protein  : ℚ
  carbs    : ℚ
  fats     : ℚ
deriving DecidableEq, Repr

def Totals.zero : Totals := ⟨0, 0, 0, 0⟩

/-- Componentwise addition, as written out field by field in the routes. -/
def Totals.add (a b : Totals) : Totals :=
  ⟨a.calories + b.calories, a.protein + b.protein,
   a.carbs + b.carbs, a.fats + b.fats⟩

/-- `meal.foodEntries.reduce((acc, food) => ({calories: acc.calories +
food.calories * food.quantity, ...}), {0,0,0,0})` — the per-meal macro
rollup of the charts route and the dashboard's `todayTotals`. -/
def mealTotals (entries : List FoodEntry) : Totals :=
  entries.foldl
    (fun acc food =>
      ⟨acc.calories + food.calories * food.quantity,
       acc.protein + food.protein * food.quantity,
       acc.carbs + food.carbs * food.quantity,
       acc.fats + food.fats * food.quantity⟩)
    Totals.zero

/-- Exact-sum characterisation of the `foldl`. -/
theorem mealTotals_foldl (entries : List FoodEntry) (acc : Totals) :
    entries.foldl
      (fun acc food =>
        (⟨acc.calories + food.calories * food.quantity,
          acc.protein + food.protein * food.quantity,
          acc.carbs + food.carbs * food.quantity,
          acc.fats + food.fats * food.quantity⟩ : Totals))
      acc =
    ⟨acc.calories + (entries.map (fun f => f.quantity * f.calories)).sum,
     acc.protein + (entries.map (fun f => f.quantity * f.protein)).sum,
     acc.carbs + (entries.map (fun f => f.quantity * f.carbs)).sum,
     acc.fats + (entries.map (fun f => f.quantity * f.fats)).sum⟩ := by
  induction entries generalizing acc with
  | nil => simp
  | cons e es ih =>
      simp only [List.foldl_cons, List.map_cons, List.sum_cons, ih]
      simp only [Totals.mk.injEq]
      refine ⟨by ring, by ring, by ring, by ring⟩

/-! ## Incremental meal-total counters (food-entry POST / DELETE) -/

/-- The `prisma.meal.update` increments applied when a food entry is added:
each stored total gains `perUnit * quantity`. -/
def addFoodTotals (m : Totals) (f : FoodEntry) : Totals :=
  ⟨m.calories + f.calories * f.quantity,
   m.protein + f.protein * f.quantity,
   m.carbs + f.carbs * f.quantity,
   m.fats + f.fats * f.quantity⟩

/-- The `prisma.meal.update` decrements applied when a food entry is
deleted: each stored total loses `perUnit * quantity`. -/
def deleteFoodTotals (m : Totals) (f : FoodEntry) : Totals :=
  ⟨m.calories - f.calories * f.quantity,
   m.protein - f.protein * f.quantity,
   m.carbs - f.carbs * f.quantity,
   m.fats - f.fats * f.quantity⟩

/-! ## Day bucketing (charts route `nutritionByDate`) -/

/-- `Map.get` on an insertion-ordered association list. -/
def mapGet (m : List (String × Totals)) (k : String) : Option Totals :=
  (m.find? (fun e => e.1 == k)).map (·.2)

/-- `Map.set`: update the existing binding in place, else append. -/
def mapSet (m : List (String × Totals)) (k : String) (v : Totals) :
    List (String × Totals) :=
  match m with
  | [] => [(k, v)]
  | e :: rest => if e.1 == k then (k, v) :: rest else e :: mapSet rest k v

/-- The charts route's grouping loop: for each (dateKey, mealTotals) record,
`existing = map.get(dateKey) || zero; map.set(dateKey, existing + totals)`. -/
def nutritionByDate (records : List (String × Totals)) :
    List (String × Totals) :=
  records.foldl
    (fun m r => mapSet m r.1 (Totals.add ((mapGet m r.1).getD Totals.zero) r.2))
    []

/-- Spec-side: total of a list of macro records. -/
def sumTotals : List Totals → Totals
  | [] => Totals.zero
  | t :: ts => Totals.add t (sumTotals ts)

theorem Totals.add_zero' (a : Totals) : Totals.add a Totals.zero = a := by
  cases a; simp [Totals.add, Totals.zero]

theorem Totals.zero_add' (a : Totals) : Totals.add Totals.zero a = a := by
  cases a; simp [Totals.add, Totals.zero]

theorem Totals.add_comm' (a b : Totals) : Totals.add a b = Totals.add b a := by
  cases a; cases b
  simp only [Totals.add, Totals.mk.injEq]
  refine ⟨by ring, by ring, by ring, by ring⟩

theorem Totals.add_assoc' (a b c : Totals) :
    Totals.add (Totals.add a b) c = Totals.add a (Totals.add b c) := by
  cases a; cases b; cases c
  simp only [Totals.add, Totals.mk.injEq]
  refine ⟨by ring, by ring, by ring, by ring⟩

theorem Totals.add_right_comm' (a b c : Totals) :
    Totals.add (Totals.add a b) c = Totals.add (Totals.add a c) b := by
  cases a; cases b; cases c
  simp only [Totals.add, Totals.mk.injEq]
  refine ⟨by ring, by ring, by ring, by ring⟩

/-- Sum of the values stored in the association list. -/
def valuesSum (m : List (String × Totals)) : Totals :=
  sumTotals (m.map Prod.snd)

theorem valuesSum_cons (x : String × Totals) (l : List (String × Totals)) :
    valuesSum (x :: l) = Totals.add x.2 (valuesSum l) := rfl

/-- One `get`-then-`set` round adds exactly the new contribution to the
value sum. -/
theorem valuesSum_mapSet (m : List (String × Totals)) (k : String) (w : Totals) :
    valuesSum (mapSet m k (Totals.add ((mapGet m k).getD Totals.zero) w)) =
      Totals.add (valuesSum m) w := by
  induction m with
  | nil =>
      simp [valuesSum, mapSet, mapGet, sumTotals, Totals.zero_add',
        Totals.add_zero']
  | cons e rest ih =>
      by_cases hk : e.1 == k
      · have hfind : List.find? (fun x => x.1 == k) (e :: rest) = some e :=
          List.find?_cons_of_pos _ hk
        rw [show mapGet (e :: rest) k = some e.2 from by
          simp only [mapGet, hfind, Option.map_some']]
        rw [Option.getD_some]
        rw [show mapSet (e :: rest) k (Totals.add e.2 w) =
              (k, Totals.add e.2 w) :: rest from by simp [mapSet, hk]]
        rw [valuesSum_cons, valuesSum_cons]
        exact Totals.add_right_comm' e.2 w (valuesSum rest)
      · have hk' : (e.1 == k) = false := by
          rw [Bool.not_eq_true] at hk; exact hk
        have hfind : List.find? (fun x : String × Totals => x.1 == k)
              (e :: rest) = List.find? (fun x => x.1 == k) rest :=
          List.find?_cons_of_neg _ hk
        rw [show mapGet (e :: rest) k = mapGet rest k from by
          simp only [mapGet, hfind]]
        rw [show mapSet (e :: rest) k
              (Totals.add ((mapGet rest k).getD Totals.zero) w) =
              e :: mapSet rest k
                (Totals.add ((mapGet rest k).getD Totals.zero) w) from by
          simp [mapSet, hk']]
        rw [valuesSum_cons, ih, valuesSum_cons, Totals.add_assoc']

/-- Folding records into the bucket map adds their value sum. -/
theorem valuesSum_fold (records : List (String × Totals))
    (m : List (String × Totals)) :
    valuesSum (records.foldl
      (fun m r =>
        mapSet m r.1 (Totals.add ((mapGet m r.1).getD Totals.zero) r.2)) m) =
      Totals.add (valuesSum m) (sumTotals (records.map Prod.snd)) := by
  induction records generalizing m with
  | nil => simp [sumTotals, Totals.add_zero']
  | cons r rs ih =>
      simp only [List.foldl_cons, List.map_cons, sumTotals]
      rw [ih, valuesSum_mapSet, Totals.add_assoc']

/-! ## Challenge leaderboard (stubbed GET handler) -/

/-- A `challengeParticipation` row. -/
structure Participation where
  userId : String
  joinedAt : ℚ
deriving DecidableEq, Repr

/-- One entry of the leaderboard JSON response. -/
structure LeaderboardEntry where
  userId : String
  userName : String
  progress : ℚ
  progressPercentage : ℚ
  joinedAt : ℚ
  isCompleted : Bool
  rank : ℕ
deriving DecidableEq, Repr

/-- One response row of the leaderboard map: `{user: {id: p.userId, name:
'Test User', ...}, progress: 0, progressPercentage: 0, joinedAt: p.joinedAt,
isCompleted: false, rank}`. -/
def mkLBEntry (p : Participation) (r : ℕ) : LeaderboardEntry :=
  { userId := p.userId
    userName := "Test User"
    progress := 0
    progressPercentage := 0
    joinedAt := p.joinedAt
    isCompleted := false
    rank := r }

/-- `participants.map((p, index) => ({..., rank: index + 1}))` — the
leaderboard GET handler's response body. -/
def leaderboard (participants : List Participation) : List LeaderboardEntry :=
  participants.mapIdx (fun index p => mkLBEntry p (index + 1))

theorem leaderboard_ranks_aux (participants : List Participation) (k : ℕ) :
    (participants.mapIdx (fun index p => mkLBEntry p (k + index + 1))).map
        (·.rank) =
      List.range' (k + 1) participants.length := by
  induction participants generalizing k with
  | nil => simp
  | cons p ps ih =>
      rw [List.mapIdx_cons]
      simp only [List.map_cons, List.length_cons]
      rw [show (fun i q => mkLBEntry q (k + (i + 1) + 1)) =
            (fun i q => mkLBEntry q ((k + 1) + i + 1)) from by
        funext i q; congr 1; omega]
      rw [ih (k := k + 1)]
      rw [show List.range' (k + 1) (ps.length + 1) =
            (k + 1) :: List.range' (k + 2) ps.length from rfl]
      rfl

theorem leaderboard_progress_aux (participants : List Participation)
    (f : ℕ → Participation → LeaderboardEntry)
    (hf : ∀ i p, (f i p).progress = 0) :
    (participants.mapIdx f).map (·.progress) =
      List.replicate participants.length 0 := by
  induction participants generalizing f with
  | nil => simp
  | cons p ps ih =>
      rw [List.mapIdx_cons]
      simp only [List.map_cons, hf, List.length_cons, List.replicate_succ]
      exact congrArg _ (ih _ (fun i q => hf _ q))

/-! ## Request validation (zod schemas and their POST handlers) -/

/-- The body of a challenge-creation request, as read by `challengeSchema`. -/
structure ChallengeInput where
  name : String
  description : Option String
  challengeType : String
  goalValue : ℚ
  startDate : String
  endDate : String
  isPublic : Option Bool
deriving DecidableEq, Repr

/-- `challengeSchema.parse`: `name: z.string().min(1, 'Name is required')`,
`challengeType: z.enum([...])`, `goalValue: z.number().positive('Goal value
must be positive')`; the first failing field's message is surfaced
(`error.issues[0].message`). -/
def challengeParse (b : ChallengeInput) : Except String ChallengeInput :=
  if b.name.length < 1 then .error "Name is required"
  else if ¬ (b.challengeType ∈
      ["steps", "distance", "weight_loss", "workout_count"]) then
    .error "Invalid enum value"
  else if ¬ (0 < b.goalValue) then .error "Goal value must be positive"
  else .ok b

/-- Outcome of a POST handler: HTTP status, error message, persisted record. -/
structure PostOutcome (α : Type) where
  status : ℕ
  errorMsg : Option String
  created : Option α
deriving DecidableEq, Repr

/-- The challenge POST handler: a `ZodError` is answered with status 400 and
`error.issues[0].message`, before any `prisma.challenge.create`; a valid body
is persisted and answered with 201. -/
def challengePOST (b : ChallengeInput) : PostOutcome ChallengeInput :=
  match challengeParse b with
  | .error m => ⟨400, some m, none⟩
  | .ok d => ⟨201, none, some d⟩

/-- The body of a food-entry request, as read by `foodEntrySchema`. -/
structure FoodInput where
  foodName : String
  brand : Option String
  servingSize : String
  servingUnit : String
  quantity : ℚ
  calories : ℚ
  protein : ℚ
  carbs : ℚ
  fats : ℚ
  fiber : Option ℚ
  sugar : Option ℚ
  sodium : Option ℚ
deriving DecidableEq, Repr

/-- `foodEntrySchema.parse`: the only constrained numeric field is
`quantity: z.number().positive()` (zod default message). -/
def foodEntryParse (b : FoodInput) : Except String FoodInput :=
  if ¬ (0 < b.quantity) then .error "Number must be greater than 0"
  else .ok b

/-- The food POST handler on a meal whose stored totals are `m`: a
`ZodError` is answered with 400 before the `foodEntry.create` and the
totals update; a valid body creates the entry and increments the totals. -/
def foodPOST (m : Totals) (b : FoodInput) : Totals × PostOutcome FoodInput :=
  match foodEntryParse b with
  | .error msg => (m, ⟨400, some msg, none⟩)
  | .ok d =>
      (addFoodTotals m
        ⟨d.quantity, d.calories, d.protein, d.carbs, d.fats⟩,
       ⟨201, none, some d⟩)

/-! ## GPS activity recorder -/

noncomputable section

/-- `Math.atan2(y, x)`: quadrant-aware arctangent over the reals. -/
def atan2 (y x : ℝ) : ℝ :=
  if 0 < x then Real.arctan (y / x)
  else if x < 0 then
    (if 0 ≤ y then Real.arctan (y / x) + Real.pi
     else Real.arctan (y / x) - Real.pi)
  else if 0 < y then Real.pi / 2
  else if y < 0 then -(Real.pi / 2)
  else 0

/-- `calculateDistance(lat1, lon1, lat2, lon2)`: haversine great-circle
distance in km, Earth radius `R = 6371`. -/
def calculateDistance (lat1 lon1 lat2 lon2 : ℝ) : ℝ :=
  let R : ℝ := 6371
  let dLat := (lat2 - lat1) * Real.pi / 180
  let dLon := (lon2 - lon1) * Real.pi / 180
  let a :=
    Real.sin (dLat / 2) * Real.sin (dLat / 2) +
      Real.cos (lat1 * Real.pi / 180) * Real.cos (lat2 * Real.pi / 180) *
        (Real.sin (dLon / 2) * Real.sin (dLon / 2))
  let c := 2 * atan2 (Real.sqrt a) (Real.sqrt (1 - a))
  R * c

/-- A GPS fix as captured by the `watchPosition` callback. -/
structure Position where
  lat : ℝ
  lng : ℝ
  timestamp : ℝ
  altitude : Option ℝ

/-- One `watchPosition` callback: append `newPos` to the recorded positions
and, when the step from the previous position exceeds the 5-meter
(0.005 km) noise threshold, add it to the running distance. -/
def recordStep (s : List Position × ℝ) (newPos : Position) :
    List Position × ℝ :=
  match s.1.getLast? with
  | none => (s.1 ++ [newPos], s.2)
  | some lastPos =>
      let dist := calculateDistance lastPos.lat lastPos.lng newPos.lat newPos.lng
      (s.1 ++ [newPos], if dist > 0.005 then s.2 + dist else s.2)

/-- The distance shown after recording a whole fix sequence (state starts
at `positions = []`, `distance = 0`). -/
def recordDistance (fixes : List Position) : ℝ :=
  (fixes.foldl recordStep ([], 0)).2

/-- Contribution of one consecutive pair to the accumulated distance. -/
def dstep (p q : Position) : ℝ :=
  if calculateDistance p.lat p.lng q.lat q.lng > 0.005
  then calculateDistance p.lat p.lng q.lat q.lng else 0

/-- Pairwise restatement of the accumulation: sum of the above-threshold
haversine steps over consecutive pairs. -/
def pairAccum : List Position → ℝ
  | p :: q :: rest => dstep p q + pairAccum (q :: rest)
  | _ => 0

/-- `duration > 0 && distance > 0 ? (duration / 60) / distance : 0` — the
`avgPace` / `currentPace` computation (duration is the timer's tick count). -/
def avgPace (duration : ℕ) (distance : ℝ) : ℝ :=
  if 0 < duration ∧ 0 < distance then ((duration : ℝ) / 60) / distance else 0

/-- One step of the `positions.reduce((gain, pos, idx) => ...)` elevation
accumulator.  `!pos.altitude` is JavaScript truthiness on an optional
number: it holds when the altitude is absent *or* equal to 0. -/
def elevStep (ps : List Position) (gain : ℝ) (ip : ℕ × Position) : ℝ :=
  if ip.1 = 0 then gain
  else
    match ps[ip.1 - 1]? with
    | none => gain
    | some prevPos =>
        match ip.2.altitude, prevPos.altitude with
        | some alt, some prevAlt =>
            if alt = 0 ∨ prevAlt = 0 then gain
            else if 0 < alt - prevAlt then gain + (alt - prevAlt) else gain
        | _, _ => gain

/-- `positions.reduce((gain, pos, idx) => {...}, 0)` from `saveActivity`. -/
def elevationGain (ps : List Position) : ℝ :=
  ps.enum.foldl (elevStep ps) 0

/-- Contribution of one consecutive pair to the elevation gain, as the code
computes it (missing *or zero* altitude on either side contributes 0). -/
def altStep (p q : Position) : ℝ :=
  match q.altitude, p.altitude with
  | some alt, some prevAlt =>
      if alt = 0 ∨ prevAlt = 0 then 0
      else if 0 < alt - prevAlt then alt - prevAlt else 0
  | _, _ => 0

/-- Pairwise restatement of the elevation accumulator. -/
def pairAlt : List Position → ℝ
  | p :: q :: rest => altStep p q + pairAlt (q :: rest)
  | _ => 0

/-- The claim's wording of the elevation gain: sum of all positive
consecutive altitude deltas, where only a *missing* altitude on either
side of a step makes the step contribute 0. -/
def specElevationGain : List Position → ℝ
  | p :: q :: rest =>
      (match q.altitude, p.altitude with
       | some alt, some prevAlt =>
           if 0 < alt - prevAlt then alt - prevAlt else 0
       | _, _ => 0) + specElevationGain (q :: rest)
  | _ => 0

end

/-! ### Distance accumulation: fold / pairwise equivalence -/

theorem pairAccum_nil : pairAccum [] = 0 := by simp [pairAccum]

theorem pairAccum_single (p : Position) : pairAccum [p] = 0 := by
  simp [pairAccum]

theorem pairAccum_cons_cons (p q : Position) (rest : List Position) :
    pairAccum (p :: q :: rest) = dstep p q + pairAccum (q :: rest) := by
  simp [pairAccum]

theorem recordStep_some_last (s : List Position × ℝ) (p x : Position)
    (h : s.1.getLast? = some x) :
    recordStep s p =
      (s.1 ++ [p],
        if calculateDistance x.lat x.lng p.lat p.lng > 0.005
        then s.2 + calculateDistance x.lat x.lng p.lat p.lng else s.2) := by
  unfold recordStep
  rw [h]

theorem recordStep_foldl (rest : List Position) :
    ∀ (accList : List Position) (x : Position) (d : ℝ),
      (rest.foldl recordStep (accList ++ [x], d)).2 = d + pairAccum (x :: rest) := by
  induction rest with
  | nil => intro accList x d; simp [pairAccum_single]
  | cons y ys ih =>
      intro accList x d
      rw [List.foldl_cons]
      rw [recordStep_some_last (accList ++ [x], d) y x (by simp)]
      rw [show accList ++ [x] ++ [y] = (accList ++ [x]) ++ [y] from rfl]
      rw [ih (accList ++ [x]) y _]
      rw [pairAccum_cons_cons]
      unfold dstep
      by_cases hd : calculateDistance x.lat x.lng y.lat y.lng > 0.005
      · rw [if_pos hd, if_pos hd]; ring
      · rw [if_neg hd, if_neg hd]; ring

/-- The recorder's running distance equals the pairwise accumulation. -/
theorem recordDistance_eq_pairAccum (fixes : List Position) :
    recordDistance fixes = pairAccum fixes := by
  cases fixes with
  | nil => rfl
  | cons x rest =>
      unfold recordDistance
      rw [List.foldl_cons]
      rw [show recordStep ([], 0) x = (([] : List Position) ++ [x], (0 : ℝ))
        from rfl]
      rw [recordStep_foldl rest [] x 0, zero_add]

/-! ### Haversine distance along the equator -/

theorem atan2_abs_sin_cos (x : ℝ) (hx : |x| < Real.pi / 2) :
    atan2 |Real.sin x| (Real.cos x) = |x| := by
  obtain ⟨h1, h2⟩ := abs_lt.mp hx
  have hcos : 0 < Real.cos x := Real.cos_pos_of_mem_Ioo ⟨h1, h2⟩
  unfold atan2
  rw [if_pos hcos]
  rcases le_or_lt 0 x with hpos | hneg
  · have hsin : 0 ≤ Real.sin x :=
      Real.sin_nonneg_of_nonneg_of_le_pi hpos
        (by linarith [Real.pi_pos])
    rw [abs_of_nonneg hsin, abs_of_nonneg hpos, ← Real.tan_eq_sin_div_cos]
    exact Real.arctan_tan (by linarith) (by linarith)
  · rw [abs_of_neg hneg]
    rw [show Real.sin x = -Real.sin (-x) from by rw [Real.sin_neg]; ring]
    rw [abs_neg]
    have hsin : 0 ≤ Real.sin (-x) :=
      Real.sin_nonneg_of_nonneg_of_le_pi (by linarith)
        (by linarith [Real.pi_pos])
    rw [abs_of_nonneg hsin]
    rw [show Real.cos x = Real.cos (-x) from by rw [Real.cos_neg]]
    rw [← Real.tan_eq_sin_div_cos]
    exact Real.arctan_tan (by linarith) (by linarith)

/-- Between two fixes on the equator the haversine formula reduces to
arc length: `6371 * |dLon|` (radians). -/
theorem calculateDistance_equator (l1 l2 : ℝ)
    (h : |(l2 - l1) * Real.pi / 180| < Real.pi) :
    calculateDistance 0 l1 0 l2 = 6371 * |(l2 - l1) * Real.pi / 180| := by
  have hhalf : |(l2 - l1) * Real.pi / 180 / 2| < Real.pi / 2 := by
    rw [abs_div, abs_two]
    linarith
  unfold calculateDistance
  dsimp only
  rw [show ((0 : ℝ) - 0) * Real.pi / 180 = 0 from by ring]
  rw [show (0 : ℝ) / 2 = 0 from by norm_num]
  rw [Real.sin_zero]
  rw [show (0 : ℝ) * Real.pi / 180 = 0 from by ring]
  rw [Real.cos_zero]
  rw [show (0 : ℝ) * 0 + 1 * 1 *
        (Real.sin ((l2 - l1) * Real.pi / 180 / 2) *
          Real.sin ((l2 - l1) * Real.pi / 180 / 2)) =
        Real.sin ((l2 - l1) * Real.pi / 180 / 2) *
          Real.sin ((l2 - l1) * Real.pi / 180 / 2) from by ring]
  rw [Real.sqrt_mul_self_eq_abs]
  rw [show (1 : ℝ) - Real.sin ((l2 - l1) * Real.pi / 180 / 2) *
        Real.sin ((l2 - l1) * Real.pi / 180 / 2) =
        Real.cos ((l2 - l1) * Real.pi / 180 / 2) *
          Real.cos ((l2 - l1) * Real.pi / 180 / 2) from by
    have hpyth := Real.sin_sq_add_cos_sq ((l2 - l1) * Real.pi / 180 / 2)
    nlinarith [hpyth]]
  rw [Real.sqrt_mul_self
    (Real.cos_pos_of_mem_Ioo (abs_lt.mp hhalf)).le]
  rw [atan2_abs_sin_cos _ hhalf]
  rw [abs_div, abs_two]
  ring

/-! ### Elevation gain: fold / pairwise equivalence -/

theorem pairAlt_nil : pairAlt [] = 0 := by simp [pairAlt]

theorem pairAlt_single (p : Position) : pairAlt [p] = 0 := by simp [pairAlt]

theorem pairAlt_cons_cons (p q : Position) (rest : List Position) :
    pairAlt (p :: q :: rest) = altStep p q + pairAlt (q :: rest) := by
  simp [pairAlt]

theorem elevStep_succ (ps : List Position) (g : ℝ) (i : ℕ) (x y : Position)
    (h : ps[i]? = some x) :
    elevStep ps g (i + 1, y) = g + altStep x y := by
  unfold elevStep altStep
  simp only [Nat.succ_ne_zero, if_false, Nat.add_sub_cancel, h]
  rcases y.altitude with _ | a <;> rcases x.altitude with _ | b <;>
    simp only []
  · ring
  · ring
  · ring
  · split_ifs <;> ring

theorem elevationGain_aux (rest : List Position) :
    ∀ (pre : List Position) (x : Position) (g : ℝ),
      (List.enumFrom (pre.length + 1) rest).foldl
          (elevStep (pre ++ x :: rest)) g = g + pairAlt (x :: rest) := by
  induction rest with
  | nil => intro pre x g; simp [pairAlt_single]
  | cons y ys ih =>
      intro pre x g
      rw [show List.enumFrom (pre.length + 1) (y :: ys) =
            (pre.length + 1, y) :: List.enumFrom (pre.length + 2) ys from rfl]
      rw [List.foldl_cons]
      rw [elevStep_succ (pre ++ x :: y :: ys) g pre.length x y
        (by rw [List.getElem?_append_right (le_refl pre.length)]; simp)]
      have hlist : pre ++ x :: y :: ys = (pre ++ [x]) ++ y :: ys := by simp
      have hlen : (pre ++ [x]).length + 1 = pre.length + 2 := by simp
      rw [hlist, ← hlen]
      rw [ih (pre ++ [x]) y (g + altStep x y)]
      rw [pairAlt_cons_cons]
      ring

/-- The index-based elevation reduce equals the pairwise accumulation. -/
theorem elevationGain_eq_pairAlt (ps : List Position) :
    elevationGain ps = pairAlt ps := by
  cases ps with
  | nil => rfl
  | cons x rest =>
      unfold elevationGain
      rw [show (x :: rest).enum = (0, x) :: List.enumFrom 1 rest from rfl]
      rw [List.foldl_cons]
      rw [show elevStep (x :: rest) 0 (0, x) = 0 from rfl]
      have := elevationGain_aux rest [] x 0
      simp only [List.length_nil, List.nil_append, zero_add] at this
      exact this

/-! ### Concrete equator distances used as test points -/

theorem calculateDistance_self_zero : calculateDistance 0 0 0 0 = 0 := by
  have hθ : ((0 : ℝ) - 0) * Real.pi / 180 = 0 := by ring
  have hlt : |((0 : ℝ) - 0) * Real.pi / 180| < Real.pi := by
    rw [hθ, abs_zero]; exact Real.pi_pos
  rw [calculateDistance_equator 0 0 hlt, hθ, abs_zero, mul_zero]

theorem calculateDistance_east :
    calculateDistance 0 0 0 (1 / 40000) = 6371 * (Real.pi / 7200000) := by
  have hθ : ((1 : ℝ) / 40000 - 0) * Real.pi / 180 = Real.pi / 7200000 := by ring
  have habs : |Real.pi / 7200000| = Real.pi / 7200000 :=
    abs_of_pos (by positivity)
  have hlt : |((1 : ℝ) / 40000 - 0) * Real.pi / 180| < Real.pi := by
    rw [hθ, habs]
    exact div_lt_self Real.pi_pos (by norm_num)
  rw [calculateDistance_equator 0 (1 / 40000) hlt, hθ, habs]

theorem calculateDistance_west :
    calculateDistance 0 0 0 (-(1 / 40000)) = 6371 * (Real.pi / 7200000) := by
  have hθ : (-((1 : ℝ) / 40000) - 0) * Real.pi / 180 = -(Real.pi / 7200000) := by
    ring
  have habs : |-(Real.pi / 7200000)| = Real.pi / 7200000 := by
    rw [abs_neg]; exact abs_of_pos (by positivity)
  have hlt : |(-((1 : ℝ) / 40000) - 0) * Real.pi / 180| < Real.pi := by
    rw [hθ, habs]
    exact div_lt_self Real.pi_pos (by norm_num)
  rw [calculateDistance_equator 0 (-(1 / 40000)) hlt, hθ, habs]

theorem calculateDistance_span :
    calculateDistance 0 (-(1 / 40000)) 0 (1 / 40000) =
      6371 * (Real.pi / 3600000) := by
  have hθ : ((1 : ℝ) / 40000 - -(1 / 40000)) * Real.pi / 180 =
      Real.pi / 3600000 := by ring
  have habs : |Real.pi / 3600000| = Real.pi / 3600000 :=
    abs_of_pos (by positivity)
  have hlt : |((1 : ℝ) / 40000 - -(1 / 40000)) * Real.pi / 180| < Real.pi := by
    rw [hθ, habs]
    exact div_lt_self Real.pi_pos (by norm_num)
  rw [calculateDistance_equator (-(1 / 40000)) (1 / 40000) hlt, hθ, habs]

theorem small_step_le_threshold : (6371 : ℝ) * (Real.pi / 7200000) ≤ 0.005 := by
  have := Real.pi_lt_d2
  nlinarith

theorem big_step_gt_threshold : (6371 : ℝ) * (Real.pi / 3600000) > 0.005 := by
  have := Real.pi_gt_three
  nlinarith

/-! ### Appending a below-threshold fix -/

theorem pairAccum_append (l : List Position) (x q : Position) :
    l.getLast? = some x → pairAccum (l ++ [q]) = pairAccum l + dstep x q := by
  induction l with
  | nil => intro hx; simp at hx
  | cons a t ih =>
      intro hx
      cases t with
      | nil =>
          have hax : a = x := by simpa using hx
          subst hax
          rw [show ([a] ++ [q] : List Position) = [a, q] from rfl]
          rw [pairAccum_cons_cons, pairAccum_single, pairAccum_single]
          ring
      | cons b t' =>
          have hx' : (b :: t').getLast? = some x := by
            have h := hx
            rw [List.getLast?_cons_cons] at h
            exact h
          rw [show ((a :: b :: t') ++ [q] : List Position) =
                a :: b :: (t' ++ [q]) from rfl]
          rw [pairAccum_cons_cons a b (t' ++ [q])]
          rw [show (b :: (t' ++ [q]) : List Position) = (b :: t') ++ [q] from
            rfl]
          rw [ih hx']
          rw [pairAccum_cons_cons a b t']
          ring

/-! ## Claims -/

/-- C1: the computed meal totals equal the sum over the food line items of
`quantity * perUnitValue`, independently in each of the four macro fields;
in particular entries `{quantity: 2, calories: 100}` and
`{quantity: 1, calories: 50}` give 250 total calories. -/
theorem mealTotals_correct (entries : List FoodEntry) :
    (mealTotals entries).calories =
        (entries.map (fun f => f.quantity * f.calories)).sum ∧
    (mealTotals entries).protein =
        (entries.map (fun f => f.quantity * f.protein)).sum ∧
    (mealTotals entries).carbs =
        (entries.map (fun f => f.quantity * f.carbs)).sum ∧
    (mealTotals entries).fats =
        (entries.map (fun f => f.quantity * f.fats)).sum ∧
    (mealTotals [⟨2, 100, 0, 0, 0⟩, ⟨1, 50, 0, 0, 0⟩]).calories = 250 := by
  have h : mealTotals entries =
      ⟨Totals.zero.calories + (entries.map (fun f => f.quantity * f.calories)).sum,
       Totals.zero.protein + (entries.map (fun f => f.quantity * f.protein)).sum,
       Totals.zero.carbs + (entries.map (fun f => f.quantity * f.carbs)).sum,
       Totals.zero.fats + (entries.map (fun f => f.quantity * f.fats)).sum⟩ :=
    mealTotals_foldl entries Totals.zero
  rw [h]
  have hex : mealTotals [⟨2, 100, 0, 0, 0⟩, ⟨1, 50, 0, 0, 0⟩] =
      ⟨Totals.zero.calories +
        (([⟨2, 100, 0, 0, 0⟩, ⟨1, 50, 0, 0, 0⟩] : List FoodEntry).map
          (fun f => f.quantity * f.calories)).sum,
       Totals.zero.protein +
        (([⟨2, 100, 0, 0, 0⟩, ⟨1, 50, 0, 0, 0⟩] : List FoodEntry).map
          (fun f => f.quantity * f.protein)).sum,
       Totals.zero.carbs +
        (([⟨2, 100, 0, 0, 0⟩, ⟨1, 50, 0, 0, 0⟩] : List FoodEntry).map
          (fun f => f.quantity * f.carbs)).sum,
       Totals.zero.fats +
        (([⟨2, 100, 0, 0, 0⟩, ⟨1, 50, 0, 0, 0⟩] : List FoodEntry).map
          (fun f => f.quantity * f.fats)).sum⟩ :=
    mealTotals_foldl _ Totals.zero
  refine ⟨by simp [Totals.zero], by simp [Totals.zero], by simp [Totals.zero],
    by simp [Totals.zero], by rw [hex]; norm_num [Totals.zero]⟩

/-- C2: the leaderboard handler returns progress 0 for every participant,
independently of challenge type and of the user's activity, weight or
workout history — the computation the claim describes is absent (stub). -/
theorem leaderboard_progress_constant_zero (participants : List Participation) :
    (leaderboard participants).map (·.progress) =
      List.replicate participants.length 0 := by
  unfold leaderboard
  exact leaderboard_progress_aux participants _ (fun i p => rfl)

/-- C3: the recorded distance is the pairwise accumulation of the haversine
step distances in which only steps above the 5-meter (0.005 km) threshold
are added — any below-threshold step contributes 0 — and a sequence of
fewer than 2 fixes yields distance 0. -/
theorem recordDistance_spec (fixes : List Position) :
    recordDistance fixes = pairAccum fixes ∧
    (∀ p q : Position,
      calculateDistance p.lat p.lng q.lat q.lng < 0.005 → dstep p q = 0) ∧
    (fixes.length < 2 → recordDistance fixes = 0) := by
  refine ⟨recordDistance_eq_pairAccum fixes, ?_, ?_⟩
  · intro p q hlt
    unfold dstep
    rw [if_neg (not_lt.mpr hlt.le)]
  · intro hlen
    rw [recordDistance_eq_pairAccum]
    cases fixes with
    | nil => exact pairAccum_nil
    | cons p rest =>
        cases rest with
        | nil => exact pairAccum_single p
        | cons q r => exact absurd hlen (by simp)

theorem recordDistance_spec_witness :
    calculateDistance 0 0 0 0 < 0.005 ∧
    ([(⟨0, 0, 0, none⟩ : Position)].length < 2) ∧
    dstep ⟨0, 0, 0, none⟩ ⟨0, 0, 0, none⟩ = 0 ∧
    recordDistance [⟨0, 0, 0, none⟩] = 0 := by
  have hd : calculateDistance 0 0 0 0 < 0.005 := by
    rw [calculateDistance_self_zero]; norm_num
  refine ⟨hd, by simp, ?_, ?_⟩
  · exact (recordDistance_spec []).2.1 ⟨0, 0, 0, none⟩ ⟨0, 0, 0, none⟩ hd
  · exact (recordDistance_spec [⟨0, 0, 0, none⟩]).2.2 (by simp)

/-- C4 counterexample: the fix `(0, -1/40000)` is within 5 meters of its
predecessor `(0, 0)`, yet inserting it between `(0, 0)` and `(0, 1/40000)`
changes the accumulated distance (the following step is re-measured from
the inserted fix and jumps above the noise threshold). -/
theorem insert_noise_fix_changes_distance :
    calculateDistance 0 0 0 (-(1 / 40000)) ≤ 0.005 ∧
    recordDistance
        [⟨0, 0, 0, none⟩, ⟨0, -(1 / 40000), 1, none⟩, ⟨0, 1 / 40000, 2, none⟩] ≠
      recordDistance [⟨0, 0, 0, none⟩, ⟨0, 1 / 40000, 2, none⟩] := by
  have hsmall := small_step_le_threshold
  have hbig := big_step_gt_threshold
  constructor
  · rw [calculateDistance_west]; exact hsmall
  · rw [recordDistance_eq_pairAccum, recordDistance_eq_pairAccum]
    rw [pairAccum_cons_cons, pairAccum_cons_cons, pairAccum_cons_cons,
      pairAccum_single]
    unfold dstep
    dsimp only
    rw [calculateDistance_west, calculateDistance_span, calculateDistance_east]
    rw [if_neg (not_lt.mpr hsmall), if_pos hbig]
    have hpos : (0 : ℝ) < 6371 * (Real.pi / 3600000) :=
      lt_trans (by norm_num) hbig
    simp only [add_zero, zero_add]
    exact ne_of_gt hpos

/-- C4 amended: appending a fix within 5 meters of the final fix to the end
of the sequence leaves the accumulated distance unchanged. -/
theorem append_noise_fix_preserves_distance (l : List Position) (x q : Position)
    (hx : l.getLast? = some x)
    (hq : calculateDistance x.lat x.lng q.lat q.lng ≤ 0.005) :
    recordDistance (l ++ [q]) = recordDistance l := by
  rw [recordDistance_eq_pairAccum, recordDistance_eq_pairAccum,
    pairAccum_append l x q hx]
  rw [show dstep x q = 0 from by unfold dstep; rw [if_neg (not_lt.mpr hq)]]
  rw [add_zero]

theorem append_noise_fix_preserves_distance_witness :
    ([(⟨0, 0, 0, none⟩ : Position)].getLast? = some ⟨0, 0, 0, none⟩) ∧
    calculateDistance 0 0 0 0 ≤ 0.005 ∧
    recordDistance [⟨0, 0, 0, none⟩, ⟨0, 0, 0, none⟩] =
      recordDistance [⟨0, 0, 0, none⟩] := by
  have h1 : ([(⟨0, 0, 0, none⟩ : Position)].getLast? =
      some ⟨0, 0, 0, none⟩) := rfl
  have h2 : calculateDistance 0 0 0 0 ≤ 0.005 := by
    rw [calculateDistance_self_zero]; norm_num
  exact ⟨h1, h2,
    append_noise_fix_preserves_distance [⟨0, 0, 0, none⟩] ⟨0, 0, 0, none⟩
      ⟨0, 0, 0, none⟩ h1 h2⟩

/-- C5: the leaderboard assigns exactly the ranks 1, 2, ..., N, each once,
and zero participants yield an empty leaderboard. -/
theorem leaderboard_ranks_complete (participants : List Participation) :
    (leaderboard participants).map (·.rank) =
      List.range' 1 participants.length ∧
    leaderboard [] = [] := by
  constructor
  · unfold leaderboard
    rw [show (fun (index : ℕ) (p : Participation) => mkLBEntry p (index + 1)) =
          (fun index p => mkLBEntry p (0 + index + 1)) from by
      funext i p; rw [Nat.zero_add]]
    exact leaderboard_ranks_aux participants 0
  · rfl

/-- C6: bucketing dated records into calendar-day buckets and summing every
bucket's values equals the sum of all input values. -/
theorem bucketing_preserves_sum (records : List (String × Totals)) :
    sumTotals ((nutritionByDate records).map Prod.snd) =
      sumTotals (records.map Prod.snd) := by
  have h := valuesSum_fold records []
  unfold valuesSum at h
  rw [show (([] : List (String × Totals)).map Prod.snd) = ([] : List Totals)
    from rfl] at h
  rw [show sumTotals ([] : List Totals) = Totals.zero from rfl] at h
  rw [Totals.zero_add'] at h
  exact h

/-- C7: the average pace is `(durationSeconds / 60) / distanceKm` whenever
the distance is positive, and is the defined value 0 (no division is
performed) when the distance is 0. -/
theorem avgPace_safe (duration : ℕ) (distance : ℝ) :
    (0 < distance →
      avgPace duration distance = ((duration : ℝ) / 60) / distance) ∧
    (distance = 0 → avgPace duration distance = 0) := by
  constructor
  · intro hd
    by_cases hdur : 0 < duration
    · rw [avgPace, if_pos ⟨hdur, hd⟩]
    · have hz : duration = 0 := by omega
      subst hz
      rw [avgPace, if_neg (by simp)]
      simp
  · intro h0
    rw [avgPace, if_neg]
    rintro ⟨_, hpos⟩
    rw [h0] at hpos
    exact lt_irrefl 0 hpos

theorem avgPace_safe_witness :
    (0 : ℝ) < 1 ∧ avgPace 60 1 = ((60 : ℕ) : ℝ) / 60 / 1 ∧
    ((0.72 : ℝ) = 0 → False) ∧ avgPace 60 0 = 0 := by
  refine ⟨by norm_num, (avgPace_safe 60 1).1 (by norm_num), by norm_num, ?_⟩
  exact (avgPace_safe 60 0).2 rfl

/-- C8 counterexample: with fixes of altitude 0 and 5, the sum of positive
altitude deltas over present altitudes is 5, but the code's truthiness
check `!pos.altitude` also treats altitude 0 as missing and yields 0. -/
theorem elevationGain_zero_altitude_counterexample :
    elevationGain [⟨0, 0, 0, some 0⟩, ⟨0, 0, 1, some 5⟩] = 0 ∧
    specElevationGain [⟨0, 0, 0, some 0⟩, ⟨0, 0, 1, some 5⟩] = 5 ∧
    elevationGain [⟨0, 0, 0, some 0⟩, ⟨0, 0, 1, some 5⟩] ≠
      specElevationGain [⟨0, 0, 0, some 0⟩, ⟨0, 0, 1, some 5⟩] := by
  have h1 : elevationGain [⟨0, 0, 0, some 0⟩, ⟨0, 0, 1, some 5⟩] = 0 := by
    rw [elevationGain_eq_pairAlt, pairAlt_cons_cons, pairAlt_single]
    rw [show altStep (⟨0, 0, 0, some 0⟩ : Position) ⟨0, 0, 1, some 5⟩ = 0 from
      by unfold altStep; exact if_pos (Or.inr rfl)]
    norm_num
  have h2 : specElevationGain [⟨0, 0, 0, some 0⟩, ⟨0, 0, 1, some 5⟩] = 5 := by
    norm_num [specElevationGain]
  exact ⟨h1, h2, by rw [h1, h2]; norm_num⟩

/-- C8 amended: the elevation gain is the sum over consecutive pairs of the
positive altitude deltas, where a step on which either fix has a missing
altitude *or an altitude equal to 0* contributes 0; the computation is a
total function (never throws). -/
theorem elevationGain_pairwise_amended (ps : List Position) :
    elevationGain ps = pairAlt ps :=
  elevationGain_eq_pairAlt ps

/-- C9: a challenge body with non-positive `goalValue`, or a food-entry
body with non-positive `quantity`, is rejected with HTTP 400 and a
validation message, and nothing is created or added to the meal totals. -/
theorem validation_rejects_nonpositive (cb : ChallengeInput) (m : Totals)
    (fb : FoodInput) :
    (cb.goalValue ≤ 0 →
      (challengePOST cb).status = 400 ∧ (challengePOST cb).errorMsg ≠ none ∧
      (challengePOST cb).created = none) ∧
    (fb.quantity ≤ 0 →
      (foodPOST m fb).2.status = 400 ∧ (foodPOST m fb).2.errorMsg ≠ none ∧
      (foodPOST m fb).2.created = none ∧ (foodPOST m fb).1 = m) := by
  constructor
  · intro hg
    have hparse : ∃ msg, challengeParse cb = .error msg := by
      unfold challengeParse
      by_cases h1 : cb.name.length < 1
      · rw [if_pos h1]; exact ⟨_, rfl⟩
      · rw [if_neg h1]
        by_cases h2 : ¬ (cb.challengeType ∈
            ["steps", "distance", "weight_loss", "workout_count"])
        · rw [if_pos h2]; exact ⟨_, rfl⟩
        · rw [if_neg h2, if_pos (not_lt.mpr hg)]
          exact ⟨_, rfl⟩
    obtain ⟨msg, hmsg⟩ := hparse
    unfold challengePOST
    rw [hmsg]
    exact ⟨rfl, by simp, rfl⟩
  · intro hq
    have hparse : foodEntryParse fb = .error "Number must be greater than 0" := by
      unfold foodEntryParse
      rw [if_pos (not_lt.mpr hq)]
    unfold foodPOST
    rw [hparse]
    exact ⟨rfl, by simp, rfl, rfl⟩

theorem validation_rejects_nonpositive_witness :
    ((0 : ℚ) ≤ 0) ∧ ((-1 : ℚ) ≤ 0) ∧
    (challengePOST ⟨"Summer steps", none, "steps", 0, "2025-06-01",
      "2025-06-30", some true⟩).status = 400 ∧
    (foodPOST Totals.zero ⟨"Oats", none, "100", "g", -1, 389, 17, 66, 7,
      none, none, none⟩).2.status = 400 := by
  refine ⟨le_refl 0, by norm_num, ?_, ?_⟩
  · exact ((validation_rejects_nonpositive
      ⟨"Summer steps", none, "steps", 0, "2025-06-01", "2025-06-30", some true⟩
      Totals.zero
      ⟨"Oats", none, "100", "g", -1, 389, 17, 66, 7, none, none, none⟩).1
      (le_refl 0)).1
  · exact ((validation_rejects_nonpositive
      ⟨"Summer steps", none, "steps", 0, "2025-06-01", "2025-06-30", some true⟩
      Totals.zero
      ⟨"Oats", none, "100", "g", -1, 389, 17, 66, 7, none, none, none⟩).2
      (by norm_num)).1

/-- C10: adding a food entry increments each stored meal total by exactly
`quantity * perUnitValue`, deleting the same entry decrements by the same
amount, and the add-then-delete round trip restores the stored totals. -/
theorem food_add_delete_roundtrip (m : Totals) (f : FoodEntry) :
    deleteFoodTotals (addFoodTotals m f) f = m ∧
    (addFoodTotals m f).calories = m.calories + f.calories * f.quantity ∧
    (addFoodTotals m f).protein = m.protein + f.protein * f.quantity ∧
    (addFoodTotals m f).carbs = m.carbs + f.carbs * f.quantity ∧
    (addFoodTotals m f).fats = m.fats + f.fats * f.quantity := by
  refine ⟨?_, rfl, rfl, rfl, rfl⟩
  unfold addFoodTotals deleteFoodTotals
  cases m
  simp only [Totals.mk.injEq]
  refine ⟨by ring, by ring, by ring, by ring⟩

end FitTrack
